import Mathlib

/-!
Verification of the openai-proxy-ha repository against its specification.

Each section shallowly embeds one component of the Python source:

* `SearchPolicies` — `app/services/search/policies.py` (recency policy table,
  `enforce_recency`, `validate_override`);
* `MemoryV2` — `app/services/memory_v2/policy.py` and `manager.py`
  (save filter, importance, expiration, `remember`, hybrid `recall`);
* `RateLim` — `app/core/rate_limiter.py` (`RateLimiter.is_allowed`,
  `RateLimiterManager.check_limit`);
* `WsRoutes` — the WebSocket message loop of `app/api/routes_v2.py`
  together with `RealtimeVoiceAgent` upstream sends;
* `Exec` — `app/services/pipeline/executor.py` (`Executor.execute`,
  `_execute_ha_actions`, `_log_action`).

Python `None`/value optionals are modelled with `Option`; Python truthiness
of optionals (`if x:`) is modelled explicitly where the source relies on it.
Wall-clock times (`time.time()` floats) are modelled as integer seconds;
every argument about them uses only ordered-ring reasoning, so nothing
depends on that restriction, and it keeps concrete runs kernel-computable.
-/

namespace SearchPolicies

/-- Search category types (`SearchCategory` enum in policies.py). -/
inductive SearchCategory
  | news
  | tech_news
  | weather
  | transport
  | stocks
  | sports
  | tech_docs
  | tutorials
  | shopping
  | historical
  | general
deriving DecidableEq, Repr

/-- Recency requirement levels (`RecencyRequirement` enum). -/
inductive RecencyRequirement
  | mandatory
  | recommended
  | optionalReq
  | forbidden
deriving DecidableEq, Repr

/-- One row of the `RecencyPolicy.POLICIES` table. -/
structure PolicyEntry where
  requirement : RecencyRequirement
  max_days : Option Int
  preferred_days : Option Int
  reason : String
deriving DecidableEq, Repr

/-- The fixed `RecencyPolicy.POLICIES` table. -/
def POLICIES : SearchCategory → PolicyEntry
  | .news =>
      { requirement := .mandatory, max_days := some 7, preferred_days := some 1,
        reason := "News must be recent to be relevant" }
  | .tech_news =>
      { requirement := .mandatory, max_days := some 7, preferred_days := some 3,
        reason := "Technology news ages quickly" }
  | .weather =>
      { requirement := .mandatory, max_days := some 1, preferred_days := some 1,
        reason := "Weather data must be current" }
  | .transport =>
      { requirement := .mandatory, max_days := some 1, preferred_days := some 1,
        reason := "Transport schedules change frequently" }
  | .stocks =>
      { requirement := .mandatory, max_days := some 1, preferred_days := some 1,
        reason := "Financial data must be real-time" }
  | .sports =>
      { requirement := .mandatory, max_days := some 7, preferred_days := some 1,
        reason := "Sports scores and news are time-sensitive" }
  | .tech_docs =>
      { requirement := .recommended, max_days := some 180, preferred_days := some 30,
        reason := "Documentation updates but not as frequently" }
  | .tutorials =>
      { requirement := .recommended, max_days := some 365, preferred_days := some 90,
        reason := "Tutorials remain relevant but best practices evolve" }
  | .shopping =>
      { requirement := .recommended, max_days := some 30, preferred_days := some 7,
        reason := "Product information and prices change" }
  | .historical =>
      { requirement := .forbidden, max_days := none, preferred_days := none,
        reason := "Historical facts do not change" }
  | .general =>
      { requirement := .recommended, max_days := some 30, preferred_days := some 7,
        reason := "General queries benefit from recent information" }

/-- Model of `RecencyPolicy.get_policy`: every enum member is a key of the table, so the
`.get(..., GENERAL)` default never fires. -/
def get_policy (category : SearchCategory) : PolicyEntry :=
  POLICIES category

/-- Python truthiness of an optional int (`if requested_days:`):
`None` and `0` are falsy, every other int truthy. -/
def pyTruthyInt : Option Int → Bool
  | none => false
  | some d => decide (d ≠ 0)

/-- Python `x or y` on an optional int versus a fallback. -/
def pyOrInt (x : Option Int) (y : Option Int) : Option Int :=
  if pyTruthyInt x then x else y

/-- The decision dictionary returned by `enforce_recency`. -/
structure RecencyDecision where
  category : SearchCategory
  requirement : RecencyRequirement
  enforced : Bool
  recency_days : Option Int
  reason : String
deriving DecidableEq, Repr

/-- Model of `RecencyPolicy.enforce_recency`.  In the mandatory branch the Python code
evaluates `requested_days is None or requested_days > policy["max_days"]`
lazily; `max_days` is set on every mandatory row of the table, so the
`(some d, none)` case below is unreachable (Python would raise there). -/
def enforce_recency (category : SearchCategory) (requested_days : Option Int) :
    RecencyDecision :=
  let policy := get_policy category
  let base : RecencyDecision :=
    { category := category, requirement := policy.requirement,
      enforced := false, recency_days := none, reason := policy.reason }
  match policy.requirement with
  | .mandatory =>
      match requested_days, policy.max_days with
      | none, _ =>
          { base with recency_days := policy.preferred_days, enforced := true }
      | some d, some m =>
          if d > m then
            { base with recency_days := policy.preferred_days, enforced := true }
          else
            { base with recency_days := some d }
      | some d, none =>
          { base with recency_days := some d }
  | .recommended =>
      { base with recency_days := pyOrInt requested_days policy.preferred_days }
  | .forbidden =>
      { base with recency_days := none, enforced := pyTruthyInt requested_days }
  | .optionalReq =>
      { base with recency_days := requested_days }

/-- Model of `RecencyPolicy.validate_override`: mandatory rejects; forbidden rejects only
when `override_days is not None`, otherwise it falls through past the
recommended block to the final `return True`; recommended requires
`len(reason) >= 20`; anything else returns `True`. -/
def validate_override (category : SearchCategory) (override_days : Option Int)
    (reason : String) : Bool :=
  let policy := get_policy category
  if policy.requirement = .mandatory then
    false
  else if policy.requirement = .forbidden ∧ override_days ≠ none then
    false
  else if policy.requirement = .recommended then
    decide (20 ≤ reason.length)
  else
    true

end SearchPolicies

namespace SearchPolicies

/-- Claim C3, counterexample: at `requested_days = 0` the Python truthiness
tests misbehave.  For the mandatory category `news`, `0 > max_days` is false,
so the decision keeps `recency_days = 0`, which is outside `[1, max_days]`;
for the forbidden category `historical`, `if requested_days:` is false at `0`,
so `enforced` stays `false` although the request was non-empty. -/
theorem c3_counterexample :
    ((get_policy .news).requirement = .mandatory ∧
      (enforce_recency .news (some 0)).recency_days = some 0 ∧
      ¬ (1 : Int) ≤ 0) ∧
    ((get_policy .historical).requirement = .forbidden ∧
      (enforce_recency .historical (some 0)).enforced = false ∧
      (some (0 : Int) ≠ (none : Option Int))) := by
  decide

/-- Claim C3 (amended): `enforce_recency` behaves as the claim states except at
non-positive requested day counts: for a mandatory category the output is
`requested_days` if `requested_days ≤ max_days` and otherwise
`preferred_days`, with `enforced = true` exactly when the output differs
from the request, and the output is non-empty and lies in `[1, max_days]`
whenever the request is empty or at least 1; for a recommended category the
output is `requested_days` or else (when absent or zero) `preferred_days`;
for a forbidden category the output is empty with `enforced = true` exactly
when `requested_days` is present and nonzero; for an optional category the
output is the request unchanged. -/
theorem enforce_recency_correct (cat : SearchCategory) (req : Option Int) :
    ((get_policy cat).requirement = .mandatory →
      (enforce_recency cat req).recency_days ≠ none ∧
      ((enforce_recency cat req).enforced = true ↔
        (enforce_recency cat req).recency_days ≠ req) ∧
      ((req = none ∨ ∃ k, req = some k ∧ (1 : Int) ≤ k) →
        ∃ r m, (enforce_recency cat req).recency_days = some r ∧
          (get_policy cat).max_days = some m ∧ 1 ≤ r ∧ r ≤ m) ∧
      (∀ k m, req = some k → (get_policy cat).max_days = some m →
        (enforce_recency cat req).recency_days =
          if k ≤ m then some k else (get_policy cat).preferred_days) ∧
      (req = none →
        (enforce_recency cat req).recency_days = (get_policy cat).preferred_days)) ∧
    ((get_policy cat).requirement = .recommended →
      (enforce_recency cat req).recency_days = pyOrInt req (get_policy cat).preferred_days ∧
      (enforce_recency cat req).enforced = false) ∧
    ((get_policy cat).requirement = .forbidden →
      (enforce_recency cat req).recency_days = none ∧
      ((enforce_recency cat req).enforced = true ↔ req ≠ none ∧ req ≠ some 0)) ∧
    ((get_policy cat).requirement = .optionalReq →
      (enforce_recency cat req).recency_days = req ∧
      (enforce_recency cat req).enforced = false) := by
  cases cat <;> rcases req with _ | k <;>
    simp only [enforce_recency, get_policy, POLICIES, pyOrInt, pyTruthyInt] <;>
    split_ifs <;> simp_all <;> try omega
  all_goals
    refine ⟨by omega, ?_⟩
    rw [if_neg (by omega)]

/-- Witness for C3: instantiated at the mandatory category `news` with an
in-range request of 3 days, the decision keeps the requested value. -/
theorem c3_witness :
    (enforce_recency .news (some 3)).recency_days = some 3 := by
  have h := (enforce_recency_correct .news (some 3)).1 (by decide)
  have h4 := h.2.2.2.1 3 7 rfl rfl
  simpa using h4

/-- Claim C4, counterexample: for the forbidden category `historical` with
`override_days = None`, the forbidden branch of `validate_override` does not
return, execution falls past the recommended block, and the final
`return True` accepts the override — the claim requires `false` for every
forbidden category. -/
theorem c4_counterexample :
    (get_policy .historical).requirement = .forbidden ∧
    validate_override .historical none "x" = true := by
  decide

/-- Claim C4 (amended): `validate_override` returns true exactly when the
category's requirement is recommended and `len(reason) ≥ 20`, or the
requirement is optional, or the requirement is forbidden and
`override_days` is empty; in particular it returns false for every mandatory
category and for every forbidden category with a non-empty `override_days`. -/
theorem validate_override_correct (cat : SearchCategory) (od : Option Int)
    (reason : String) :
    validate_override cat od reason = true ↔
      ((get_policy cat).requirement = .recommended ∧ 20 ≤ reason.length) ∨
      (get_policy cat).requirement = .optionalReq ∨
      ((get_policy cat).requirement = .forbidden ∧ od = none) := by
  cases cat <;> cases od <;>
    simp [validate_override, get_policy, POLICIES]

/-- Witness for C4: a recommended category with a 20+ character reason is
accepted. -/
theorem c4_witness :
    validate_override .tutorials (some 730) "need long-term tutorial results" = true := by
  exact (validate_override_correct .tutorials (some 730)
    "need long-term tutorial results").mpr (Or.inl ⟨rfl, by decide⟩)

end SearchPolicies

namespace MemoryV2

/-- Python `str.lower()`.  `Char.toLower` folds only ASCII letters, so this
model is exact on ASCII and on text that is already lowercase (all the
Russian keyword lists in the source are lowercase). -/
def pyLower (s : String) : String :=
  String.mk (s.data.map Char.toLower)

/-- Python `str.strip()`: drop whitespace from both ends (implemented over the
character list so that it reduces in the kernel). -/
def pyStrip (s : String) : String :=
  String.mk (((s.data.dropWhile Char.isWhitespace).reverse.dropWhile
    Char.isWhitespace).reverse)

/-- Membership of `pattern` in `haystack` (Python `pattern in content`). -/
def listContainsSub : List Char → List Char → Bool
  | [], pat => pat.isEmpty
  | h :: t, pat => pat.isPrefixOf (h :: t) || listContainsSub t pat

/-- Python `pattern in s` on strings. -/
def strContains (s pattern : String) : Bool :=
  listContainsSub s.data pattern.data

/-- Types of memories (`MemoryType` enum in policy.py). -/
inductive MemoryType
  | conversation
  | preference
  | rule
  | fact
  | action
  | error
deriving DecidableEq, Repr

/-- Memory importance levels (`MemoryImportance` enum). -/
inductive MemoryImportance
  | low
  | medium
  | high
  | critical
deriving DecidableEq, Repr

/-- A metadata dictionary, modelled as an association list of string keys and
string values (the keys the policy consults — `role`, `intent` — hold
strings). -/
abbrev Metadata := List (String × String)

/-- Python truthiness of the optional metadata dict: `None` and `{}` are
falsy. -/
def pyTruthyMeta : Option Metadata → Bool
  | none => false
  | some l => !l.isEmpty

/-- Model of `metadata.get(key)` on the optional dict. -/
def metaGet (md : Option Metadata) (key : String) : Option String :=
  match md with
  | none => none
  | some l => l.lookup key

/-- The hard-coded acknowledgement list in `should_save`. -/
def short_responses : List String :=
  ["ok", "да", "нет", "yes", "no", "хорошо", "понял"]

/-- Model of `MemoryPolicy.should_save`.  Note that the system-role filter reads the
role from the *metadata* dict (`metadata and metadata.get("role") ==
"system"`); the separate `role` argument of `MemoryManager.remember` is never
consulted here. -/
def should_save (content : String) (memory_type : MemoryType)
    (metadata : Option Metadata) : Bool :=
  if content = "" ∨ (pyStrip content).length < 3 then false
  else if pyTruthyMeta metadata = true ∧ metaGet metadata "role" = some "system" then
    false
  else if short_responses.contains (pyStrip (pyLower content)) then false
  else if memory_type = .rule ∨ memory_type = .preference then true
  else if memory_type = .action then true
  else if memory_type = .conversation ∧ 20 ≤ content.length then true
  else if memory_type = .fact then true
  else false

/-- The emphasis keywords of `determine_importance`. -/
def high_importance_keywords : List String :=
  ["важно", "запомни", "всегда", "никогда", "обязательно",
   "important", "remember", "always", "never", "must"]

/-- Model of `MemoryPolicy.determine_importance`. -/
def determine_importance (content : String) (memory_type : MemoryType)
    (_metadata : Option Metadata) : MemoryImportance :=
  if memory_type = .rule ∨ memory_type = .preference then .critical
  else if memory_type = .action then .high
  else if memory_type = .fact then .high
  else if memory_type = .error then .medium
  else if high_importance_keywords.any (fun kw => strContains (pyLower content) kw) then
    .high
  else if 100 < content.length then .medium
  else .low

/-- Model of `MemoryPolicy.RETENTION_POLICY` via `get_retention_days`, in days. -/
def get_retention_days : MemoryImportance → Option Nat
  | .low => some 1
  | .medium => some 7
  | .high => some 30
  | .critical => none

/-- Model of `MemoryPolicy.get_expiration_date`.  Timestamps are seconds as integers;
`timedelta(days=d)` is `d * 86400` seconds; `created_at = None` falls back to
the current time `now`. -/
def get_expiration_date (importance : MemoryImportance)
    (created_at : Option Int) (now : Int) : Option Int :=
  match get_retention_days importance with
  | none => none
  | some d => some (created_at.getD now + (d : Int) * 86400)

/-- Model of `MemoryPolicy.should_save_to_short_term`: everything goes to short-term. -/
def should_save_to_short_term (_importance : MemoryImportance) : Bool :=
  true

/-- Model of `MemoryPolicy.should_save_to_long_term`: medium and above. -/
def should_save_to_long_term (importance : MemoryImportance) : Bool :=
  importance = .medium ∨ importance = .high ∨ importance = .critical

/-- Keyword lists of `classify_content`. -/
def rule_keywords : List String :=
  ["запомни", "всегда", "никогда", "правило", "remember", "always", "never", "rule"]

/-- Preference keywords of `classify_content`. -/
def preference_keywords : List String :=
  ["предпочитаю", "люблю", "не люблю", "prefer", "like", "dislike"]

/-- Fact keywords of `classify_content`. -/
def fact_keywords : List String :=
  ["это", "такое", "означает", "is", "means", "refers"]

/-- Model of `MemoryPolicy.classify_content`.  The `role` argument is accepted but
unused, exactly as in the source. -/
def classify_content (content : String) (_role : String)
    (metadata : Option Metadata) : MemoryType :=
  let cl := pyLower content
  if rule_keywords.any (fun kw => strContains cl kw) then .rule
  else if preference_keywords.any (fun kw => strContains cl kw) then .preference
  else if fact_keywords.any (fun kw => strContains cl kw) then .fact
  else if pyTruthyMeta metadata = true ∧
      (metaGet metadata "intent" = some "ha_control" ∨
       metaGet metadata "intent" = some "ha_automation") then .action
  else if strContains cl "ошибка" ∨ strContains cl "error" then .error
  else .conversation

/-- The dictionary returned by `MemoryManager.remember` (the fields the claims
talk about; write receipts and ids are omitted). -/
structure RememberResult where
  saved : Bool
  memory_type : Option MemoryType
  importance : Option MemoryImportance
  expires_at : Option Int
  saved_to_short : Bool
  saved_to_long : Bool
deriving DecidableEq, Repr

/-- Body of `MemoryManager.remember` after the memory type has been fixed:
filter through `should_save`, then compute importance, expiration and target
stores.  `now` stands for `datetime.utcnow()` at the call. -/
def remember_with_type (content : String) (metadata : Option Metadata)
    (mt : MemoryType) (now : Int) : RememberResult :=
  if ¬ (should_save content mt metadata = true) then
    { saved := false, memory_type := none, importance := none,
      expires_at := none, saved_to_short := false, saved_to_long := false }
  else
    let imp := determine_importance content mt metadata
    let expires := get_expiration_date imp none now
    { saved := true, memory_type := some mt, importance := some imp,
      expires_at := expires,
      saved_to_short := should_save_to_short_term imp,
      saved_to_long := should_save_to_long_term imp }

/-- Model of `MemoryManager.remember`: classify when no explicit type is given, then
proceed as `remember_with_type`. -/
def remember (content : String) (role : String) (metadata : Option Metadata)
    (memory_type : Option MemoryType) (now : Int) : RememberResult :=
  remember_with_type content metadata
    (match memory_type with
      | some t => t
      | none => classify_content content role metadata) now

end MemoryV2

namespace MemoryV2

/-- The short-content filter of `should_save` fires first. -/
lemma should_save_short (content : String) (t : MemoryType) (md : Option Metadata)
    (h : (pyStrip content).length < 3) : should_save content t md = false := by
  simp [should_save, h]

/-- The system-role filter of `should_save`: a non-empty metadata dict whose
`role` entry is `"system"` is always rejected. -/
lemma should_save_system_meta (content : String) (t : MemoryType)
    (l : Metadata) (hne : l ≠ []) (hrole : l.lookup "role" = some "system") :
    should_save content t (some l) = false := by
  have hcond : pyTruthyMeta (some l) = true ∧ metaGet (some l) "role" = some "system" :=
    ⟨by simpa [pyTruthyMeta, List.isEmpty_iff] using hne, by simpa [metaGet] using hrole⟩
  unfold should_save
  split_ifs with h1 <;> rfl

/-- Core of C5 for a fixed effective memory type. -/
lemma remember_with_type_spec (content : String) (md : Option Metadata)
    (t : MemoryType) (now : Int) :
    ((remember_with_type content md t now).importance = some .critical →
      (remember_with_type content md t now).expires_at = none) ∧
    ((pyStrip content).length < 3 →
      (remember_with_type content md t now).saved = false) ∧
    (∀ l, md = some l → l ≠ [] → l.lookup "role" = some "system" →
      (remember_with_type content md t now).saved = false) := by
  refine ⟨?_, ?_, ?_⟩
  · unfold remember_with_type
    by_cases hs : should_save content t md = true
    · simp only [hs, not_true_eq_false, if_false]
      intro h
      have hc : determine_importance content t md = .critical := by
        simpa using h
      simp [hc, get_expiration_date, get_retention_days]
    · simp [hs]
  · intro h
    simp [remember_with_type, should_save_short content t md h]
  · intro l hmd hne hrole
    subst hmd
    simp [remember_with_type, should_save_system_meta content t l hne hrole]

end MemoryV2

namespace MemoryV2

/-- Claim C5, counterexample: `should_save` reads the message role only from
the metadata dict (`metadata and metadata.get("role") == "system"`), never
from the `role` argument of `remember`; a call with `role="system"` and no
metadata is therefore saved, although the claim says a system message is
never saved. -/
theorem c5_counterexample :
    (remember "remember to dim the lights" "system" none (some .rule) 0).saved
      = true := by
  rfl

/-- Claim C5 (amended): for every call to `remember`, content saved with
critical importance is stored with no expiration date; content whose
stripped length is below 3 characters is never saved; and a message whose
*metadata* carries `role = "system"` (in a non-empty metadata dict) is never
saved — the `role` argument itself is not consulted by the save filter. -/
theorem remember_correct (content role : String) (md : Option Metadata)
    (mt : Option MemoryType) (now : Int) :
    ((remember content role md mt now).importance = some .critical →
      (remember content role md mt now).expires_at = none) ∧
    ((pyStrip content).length < 3 →
      (remember content role md mt now).saved = false) ∧
    (∀ l, md = some l → l ≠ [] → l.lookup "role" = some "system" →
      (remember content role md mt now).saved = false) := by
  cases mt <;> exact remember_with_type_spec content md _ now

/-- Witness for C5: the two-character acknowledgement "ok" is rejected, and a
metadata dict carrying the system role is rejected. -/
theorem c5_witness :
    (remember "ok" "user" none (some .conversation) 0).saved = false ∧
    (remember "a long enough piece of content" "user" (some [("role", "system")])
      none 0).saved = false := by
  refine ⟨?_, ?_⟩
  · exact (remember_correct "ok" "user" none (some .conversation) 0).2.1 (by decide)
  · exact (remember_correct "a long enough piece of content" "user"
      (some [("role", "system")]) none 0).2.2 [("role", "system")] rfl
      (by decide) (by decide)

end MemoryV2

namespace MemoryV2

/-- A stored memory entry as the recall path sees it: the user key, the
content, the timestamp string used as the Python sort key (short-term rows
expose it as `"timestamp"`, long-term hits inside `metadata["timestamp"]`;
both are ISO strings whose lexicographic order is chronological), and the
memory type. -/
structure Entry where
  user_id : String
  content : String
  tsKey : String
  memory_type : MemoryType
deriving DecidableEq, Repr

/-- Model of `ShortTermMemory.get_recent`: rows of the `dialog_history` table filtered
by user (and type when given), ordered newest first, limited, and reversed
to chronological order on return. -/
def get_recent (db : List Entry) (user : String) (limit : Nat)
    (mt : Option MemoryType) : List Entry :=
  let rows := db.filter (fun e =>
    decide (e.user_id = user) &&
      (match mt with
        | some t => decide (e.memory_type = t)
        | none => true))
  ((List.insertionSort (fun a b => b.tsKey ≤ a.tsKey) rows).take limit).reverse

/-- Model of `LongTermMemory.search` after the vector store returned raw hits (entry +
similarity): keep hits of this user at or above the similarity threshold,
sort by similarity descending, truncate to `limit`. -/
def semantic_search (hits : List (Entry × ℚ)) (user : String) (limit : Nat)
    (minSim : ℚ) : List Entry :=
  let kept := hits.filter (fun h =>
    decide (h.1.user_id = user) && decide (minSim ≤ h.2))
  (((List.insertionSort (fun a b => b.2 ≤ a.2) kept).take limit).map Prod.fst)

/-- The `seen`-set deduplication loop of `MemoryManager.recall` (hybrid
branch): keep the first entry for each content value. -/
def dedup_seen : List String → List Entry → List Entry
  | _, [] => []
  | seen, e :: rest =>
      if e.content ∈ seen then dedup_seen seen rest
      else e :: dedup_seen (e.content :: seen) rest

/-- Deduplicate by content starting from an empty `seen` set. -/
def dedupByContent (l : List Entry) : List Entry :=
  dedup_seen [] l

/-- The hybrid branch of `MemoryManager.recall` given the two store results:
merge, deduplicate by content, sort by timestamp key descending (Python's
stable sort with `reverse=True`), and cap at `limit`. -/
def recall_hybrid (recent semantic : List Entry) (limit : Nat) : List Entry :=
  (List.insertionSort (fun a b => b.tsKey ≤ a.tsKey)
    (dedupByContent (recent ++ semantic))).take limit

/-- Model of `MemoryManager.recall` with `search_strategy="hybrid"` (named
`recall_memories` here because `recall` is a Mathlib command): half of
`limit` from each store, then the hybrid merge. -/
def recall_memories (db : List Entry) (hits : List (Entry × ℚ)) (user : String)
    (mt : Option MemoryType) (limit : Nat) (minSim : ℚ) : List Entry :=
  recall_hybrid (get_recent db user (limit / 2) mt)
    (semantic_search hits user (limit / 2) minSim) limit

/-- Every entry surviving deduplication has content outside the `seen` set. -/
lemma mem_dedup_seen {e : Entry} :
    ∀ (seen : List String) (l : List Entry), e ∈ dedup_seen seen l →
      e.content ∉ seen := by
  intro seen l
  induction l generalizing seen with
  | nil => simp [dedup_seen]
  | cons a rest ih =>
      intro h
      by_cases ha : a.content ∈ seen
      · exact ih seen (by simpa [dedup_seen, ha] using h)
      · rcases (by simpa [dedup_seen, ha] using h : e = a ∨
          e ∈ dedup_seen (a.content :: seen) rest) with rfl | hmem
        · exact ha
        · intro hc
          exact ih (a.content :: seen) hmem (List.mem_cons_of_mem _ hc)

/-- The deduplication loop yields a sublist of its input. -/
lemma dedup_seen_sublist : ∀ (seen : List String) (l : List Entry),
    List.Sublist (dedup_seen seen l) l := by
  intro seen l
  induction l generalizing seen with
  | nil => simp [dedup_seen]
  | cons a rest ih =>
      by_cases ha : a.content ∈ seen
      · simp only [dedup_seen, if_pos ha]
        exact (ih seen).trans (List.sublist_cons_self a rest)
      · simp only [dedup_seen, if_neg ha]
        exact (ih (a.content :: seen)).cons₂ a

/-- The deduplication loop yields pairwise-distinct contents. -/
lemma dedup_seen_pairwise : ∀ (seen : List String) (l : List Entry),
    (dedup_seen seen l).Pairwise (fun a b => a.content ≠ b.content) := by
  intro seen l
  induction l generalizing seen with
  | nil => simp [dedup_seen]
  | cons a rest ih =>
      by_cases ha : a.content ∈ seen
      · simpa [dedup_seen, ha] using ih seen
      · simp only [dedup_seen, if_neg ha]
        refine List.Pairwise.cons ?_ (ih (a.content :: seen))
        intro b hb heq
        exact mem_dedup_seen _ _ hb (heq ▸ List.mem_cons_self _ _)

end MemoryV2

namespace MemoryV2

/-- Structural properties of the hybrid merge, for any store results. -/
lemma recall_hybrid_spec (recent semantic : List Entry) (limit : Nat) :
    (recall_hybrid recent semantic limit).Pairwise
      (fun a b => a.content ≠ b.content) ∧
    (recall_hybrid recent semantic limit).Pairwise
      (fun a b => b.tsKey ≤ a.tsKey) ∧
    (recall_hybrid recent semantic limit).length ≤ limit ∧
    (∀ e ∈ recall_hybrid recent semantic limit, e ∈ recent ∨ e ∈ semantic) := by
  haveI htot : IsTotal Entry (fun a b => b.tsKey ≤ a.tsKey) :=
    ⟨fun a b => le_total b.tsKey a.tsKey⟩
  haveI htrans : IsTrans Entry (fun a b => b.tsKey ≤ a.tsKey) :=
    ⟨fun _ _ _ hab hbc => le_trans hbc hab⟩
  have hpu : (dedupByContent (recent ++ semantic)).Pairwise
      (fun a b => a.content ≠ b.content) := dedup_seen_pairwise [] _
  have hperm := List.perm_insertionSort (fun a b : Entry => b.tsKey ≤ a.tsKey)
    (dedupByContent (recent ++ semantic))
  have hsym : Symmetric (fun a b : Entry => a.content ≠ b.content) :=
    fun _ _ h heq => h heq.symm
  refine ⟨?_, ?_, ?_, ?_⟩
  · exact ((hperm.pairwise_iff (fun hxy => hsym hxy)).mpr hpu).sublist
      (List.take_sublist _ _)
  · exact (List.sorted_insertionSort _ _).sublist (List.take_sublist _ _)
  · simp [recall_hybrid]
  · intro e he
    have h1 : e ∈ dedupByContent (recent ++ semantic) :=
      hperm.subset ((List.take_sublist _ _).subset he)
    exact List.mem_append.mp ((dedup_seen_sublist [] _).subset h1)

/-- Lemma: `get_recent` returns at most `limit` entries. -/
lemma get_recent_length_le (db : List Entry) (user : String) (limit : Nat)
    (mt : Option MemoryType) : (get_recent db user limit mt).length ≤ limit := by
  simp [get_recent]

/-- Lemma: `semantic_search` returns at most `limit` entries. -/
lemma semantic_search_length_le (hits : List (Entry × ℚ)) (user : String)
    (limit : Nat) (minSim : ℚ) :
    (semantic_search hits user limit minSim).length ≤ limit := by
  simp [semantic_search]

/-- A duplicate-free list has no more elements satisfying membership in `base`
than `base` has elements. -/
lemma countP_mem_le (out base : List Entry) (hnd : out.Nodup) :
    out.countP (fun e => decide (e ∈ base)) ≤ base.length := by
  rw [List.countP_eq_length_filter]
  have hsub : (out.filter (fun e => decide (e ∈ base))) ⊆ base := by
    intro x hx
    simpa using List.of_mem_filter hx
  exact ((hnd.filter _).subperm hsub).length_le

end MemoryV2

namespace MemoryV2

/-- Claim C9: a hybrid recall contains no two entries with identical content,
is sorted by timestamp key descending, has at most `limit` entries, draws at
most `limit / 2` entries from the recent store and at most `limit / 2` from
the semantic store (each store is queried with `limit / 2` and the result
only contains entries coming from those store answers). -/
theorem recall_memories_hybrid_correct (db : List Entry)
    (hits : List (Entry × ℚ)) (user : String) (mt : Option MemoryType)
    (limit : Nat) (minSim : ℚ) :
    (recall_memories db hits user mt limit minSim).Pairwise
      (fun a b => a.content ≠ b.content) ∧
    (recall_memories db hits user mt limit minSim).Pairwise
      (fun a b => b.tsKey ≤ a.tsKey) ∧
    (recall_memories db hits user mt limit minSim).length ≤ limit ∧
    (recall_memories db hits user mt limit minSim).countP
      (fun e => decide (e ∈ get_recent db user (limit / 2) mt)) ≤ limit / 2 ∧
    (recall_memories db hits user mt limit minSim).countP
      (fun e => decide (e ∈ semantic_search hits user (limit / 2) minSim))
        ≤ limit / 2 ∧
    (∀ e ∈ recall_memories db hits user mt limit minSim,
      e ∈ get_recent db user (limit / 2) mt ∨
      e ∈ semantic_search hits user (limit / 2) minSim) := by
  obtain ⟨h1, h2, h3, h4⟩ := recall_hybrid_spec (get_recent db user (limit / 2) mt)
    (semantic_search hits user (limit / 2) minSim) limit
  have hnd : (recall_memories db hits user mt limit minSim).Nodup :=
    h1.imp (fun h heq => h (congrArg Entry.content heq))
  exact ⟨h1, h2, h3,
    le_trans (countP_mem_le _ _ hnd) (get_recent_length_le _ _ _ _),
    le_trans (countP_mem_le _ _ hnd) (semantic_search_length_le _ _ _ _),
    h4⟩

/-- A tiny concrete store for the C9 witness: two recent rows and one semantic
hit sharing the content "dup". -/
def dbW : List Entry :=
  [⟨"u", "hello world", "2024-01-02T00:00:00", .conversation⟩,
   ⟨"u", "dup", "2024-01-03T00:00:00", .conversation⟩]

/-- One semantic hit duplicating a recent row's content. -/
def hitsW : List (Entry × ℚ) :=
  [(⟨"u", "dup", "2024-01-01T00:00:00", .fact⟩, (9 : ℚ) / 10)]

/-- Witness for C9, instantiated at the concrete store `dbW`/`hitsW`. -/
theorem c9_witness :
    (recall_memories dbW hitsW "u" none 4 ((7 : ℚ) / 10)).Pairwise
      (fun a b => a.content ≠ b.content) ∧
    (recall_memories dbW hitsW "u" none 4 ((7 : ℚ) / 10)).length ≤ 4 := by
  have h := recall_memories_hybrid_correct dbW hitsW "u" none 4 ((7 : ℚ) / 10)
  exact ⟨h.1, h.2.2.1⟩

end MemoryV2

namespace RateLim

/-- The eviction loop of `RateLimiter.is_allowed`:
`while self.requests and self.requests[0] < minute_ago: popleft()`.
It inspects only the head, exactly like the deque loop. -/
def prune (now : Int) : List Int → List Int
  | [] => []
  | t :: rest => if t < now - 60 then prune now rest else t :: rest

/-- Model of `RateLimiter.is_allowed`: evict old timestamps, allow and record `now`
when under the limit, otherwise report the wait until the oldest retained
timestamp leaves the window.  Returns `((allowed, wait), new deque)`.  The
`identifier` parameter of the Python method is unused there and therefore
omitted here (see `check_limit`).  The empty-deque denial case is unreachable
for `rate ≥ 1` (Python would raise an IndexError on `self.requests[0]`). -/
def is_allowed (rate : Nat) (requests : List Int) (now : Int) :
    (Bool × Int) × List Int :=
  let pruned := prune now requests
  if pruned.length < rate then
    ((true, 0), pruned ++ [now])
  else
    match pruned with
    | [] => ((false, 0), pruned)
    | oldest :: _ => ((false, max 0 (60 - (now - oldest))), pruned)

/-- One named limiter of `RateLimiterManager` (`rate_per_minute` fixed at
creation, plus the shared timestamp deque). -/
structure Limiter where
  rate_per_minute : Nat
  requests : List Int
deriving DecidableEq, Repr

/-- Replace the binding of `name` in the manager's dict (insert if absent). -/
def setLimiter (limiters : List (String × Limiter)) (name : String)
    (v : Limiter) : List (String × Limiter) :=
  match limiters with
  | [] => [(name, v)]
  | (k, w) :: rest =>
      if k = name then (k, v) :: rest else (k, w) :: setLimiter rest name v

/-- Model of `RateLimiterManager.check_limit` = `get_limiter` + `is_allowed`.  The
limiter is keyed by `name` only; an existing limiter keeps its original
rate; the `identifier` argument is passed to `is_allowed`, which ignores it,
so all identifiers share one deque per name. -/
def check_limit (limiters : List (String × Limiter)) (name : String)
    (rate_per_minute : Nat) (identifier : String) (now : Int) :
    (Bool × Int) × List (String × Limiter) :=
  let _ := identifier
  let lim := (limiters.lookup name).getD ⟨rate_per_minute, []⟩
  let r := is_allowed lim.rate_per_minute lim.requests now
  (r.1, setLimiter limiters name { lim with requests := r.2 })

/-- Pruning never lengthens the deque. -/
lemma prune_length_le (now : Int) : ∀ l : List Int,
    (prune now l).length ≤ l.length := by
  intro l
  induction l with
  | nil => simp [prune]
  | cons t rest ih =>
      by_cases h : t < now - 60
      · simp only [prune, if_pos h]
        exact le_trans ih (Nat.le_succ _)
      · simp [prune, if_neg h]

/-- The head retained by pruning is inside the 60-second window. -/
lemma prune_head_in_window (now : Int) : ∀ (l : List Int) (oldest : Int)
    (rest : List Int), prune now l = oldest :: rest → now - 60 ≤ oldest := by
  intro l
  induction l with
  | nil => intro o r h; simp [prune] at h
  | cons t tl ih =>
      intro o r h
      by_cases ht : t < now - 60
      · exact ih o r (by simpa [prune, ht] using h)
      · have : t :: tl = o :: r := by simpa [prune, ht] using h
        cases this
        omega

end RateLim

namespace RateLim

/-- Claim C6, counterexample: with rate 1, a request accepted at time 0 is
still retained at time 60 (eviction uses a strict `<`), so the second check
is denied with wait `60 − (60 − 0) = 0`, not a positive wait as claimed. -/
theorem c6_counterexample :
    (is_allowed 1 [] 0).1 = (true, 0) ∧
    (is_allowed 1 [] 0).2 = [0] ∧
    (is_allowed 1 [0] 60).1 = (false, 0) := by
  decide

/-- Claim C6 (amended): a check is allowed iff fewer than `rate` timestamps
are retained within the last 60 seconds; an allowed check records `now`;
a denied check returns `wait = max 0 (60 − (now − oldest)) ≥ 0`, which is
strictly positive whenever the oldest retained timestamp is strictly inside
the window (at the exact boundary `now − oldest = 60` the wait is 0); and
once the oldest timestamp of a full deque falls outside the window, the next
check is accepted again. -/
theorem is_allowed_correct (rate : Nat) (requests : List Int) (now : Int) :
    ((is_allowed rate requests now).1.1 = true ↔
      (prune now requests).length < rate) ∧
    ((prune now requests).length < rate →
      (is_allowed rate requests now).1 = (true, 0) ∧
      (is_allowed rate requests now).2 = prune now requests ++ [now]) ∧
    (∀ oldest rest, prune now requests = oldest :: rest →
      ¬ (prune now requests).length < rate →
      (is_allowed rate requests now).1 = (false, max 0 (60 - (now - oldest))) ∧
      0 ≤ (is_allowed rate requests now).1.2 ∧
      (now - 60 < oldest → 0 < (is_allowed rate requests now).1.2) ∧
      (is_allowed rate requests now).2 = prune now requests) ∧
    (∀ oldest rest, requests = oldest :: rest → requests.length = rate →
      oldest < now - 60 → (is_allowed rate requests now).1.1 = true) := by
  refine ⟨?_, ?_, ?_, ?_⟩
  · by_cases hlt : (prune now requests).length < rate
    · simp [is_allowed, hlt]
    · have hres : (is_allowed rate requests now).1.1 = false := by
        simp only [is_allowed]
        rw [if_neg hlt]
        cases hp : prune now requests <;> simp
      simp [hres, hlt]
  · intro hlt
    simp [is_allowed, hlt]
  · intro oldest rest hp hnlt
    have hwin : now - 60 ≤ oldest := prune_head_in_window now requests oldest rest hp
    have hres : is_allowed rate requests now =
        ((false, max 0 (60 - (now - oldest))), oldest :: rest) := by
      simp only [is_allowed]
      rw [if_neg hnlt, hp]
    refine ⟨?_, ?_, ?_, ?_⟩
    · rw [hres]
    · rw [hres]
      exact le_max_left _ _
    · intro hstrict
      rw [hres]
      have hmax : max (0 : Int) (60 - (now - oldest)) = 60 - (now - oldest) :=
        max_eq_right (by omega)
      simp only [hmax]
      omega
    · rw [hres, hp]
  · intro oldest rest hreq hlen hold
    subst hreq
    have h1 : prune now (oldest :: rest) = prune now rest := by
      simp [prune, hold]
    have h2 := prune_length_le now rest
    have hlt : (prune now (oldest :: rest)).length < rate := by
      rw [h1]
      simp at hlen
      omega
    simp [is_allowed, hlt]

/-- Witness for C6: with rate 2 and a full window `[0, 10]`, the check at
time 30 is denied and must wait 30 seconds. -/
theorem c6_witness :
    (is_allowed 2 [0, 10] 30).1 = (false, 30) := by
  have h := ((is_allowed_correct 2 [0, 10] 30).2.2.1 0 [10]
    (by decide) (by decide)).1
  have hmax : max (0 : Int) (60 - (30 - 0)) = 30 := by decide
  rw [hmax] at h
  exact h

end RateLim

namespace RateLim

/-- Claim C7: `RateLimiter.is_allowed` accepts an `identifier` argument but
never reads it, so `check_limit` keeps a single timestamp deque per limiter
*name*.  With rate 1, a first-ever request by "bob" is denied (wait 59)
after a request by "alice" under the same name, while the same "bob" request
against a fresh manager is allowed — the budgets are not independent. -/
theorem c7_identifier_ignored :
    (check_limit [] "user_messages" 1 "alice" 0).1 = (true, 0) ∧
    (check_limit (check_limit [] "user_messages" 1 "alice" 0).2
      "user_messages" 1 "bob" 1).1 = (false, 59) ∧
    (check_limit [] "user_messages" 1 "bob" 1).1 = (true, 0) := by
  decide

end RateLim

namespace WsRoutes

/-- Python truthiness of an optional string: `None` and `""` are falsy. -/
def pyTruthyStr : Option String → Bool
  | none => false
  | some s => decide (s ≠ "")

/-- Replace the binding of `user` in the per-user message dict. -/
def setUserMsgs (m : List (String × List Int)) (user : String)
    (v : List Int) : List (String × List Int) :=
  match m with
  | [] => [(user, v)]
  | (k, w) :: rest =>
      if k = user then (k, v) :: rest else (k, w) :: setUserMsgs rest user v

/-- Model of `WebSocketRateLimiter.check_limit`: drop timestamps 60 seconds old or
older (`current_time - t < 60` keeps), deny with
`wait = 60 − (now − oldest)` when the cleaned list has reached
`max_messages` (the list is then non-empty since `max_messages ≥ 1`; the
`headD` default is unreachable), else record `now` and allow. -/
def ws_check_limit (user_messages : List (String × List Int))
    (max_messages : Nat) (user : String) (now : Int) :
    (Bool × Int) × List (String × List Int) :=
  let msgs := (user_messages.lookup user).getD []
  let cleaned := msgs.filter (fun t => decide (now - t < 60))
  if max_messages ≤ cleaned.length then
    ((false, 60 - (now - cleaned.headD 0)), setUserMsgs user_messages user cleaned)
  else
    ((true, 0), setUserMsgs user_messages user (cleaned ++ [now]))

/-- Inbound client messages of the `/v1/realtime/ws` loop.  Field values are
`Option`s because the handler reads them with `data.get(...)`. -/
inductive ClientMessage
  | configure (user_id : Option String)
  | audio_input (audio : Option String)
  | audio_commit
  | text_input (text : Option String)
  | cancel
  | function_result (call_id : Option String) (output : Option String)
  | ping
  | unknown (t : String)
deriving DecidableEq, Repr

/-- Frames the handler sends back to the client (the ones the claims need;
forwarded model events travel through the listener task, not this loop). -/
inductive OutFrame
  | configured (session_id : String)
  | pong
  | error_rate_limit (wait : Int)
  | error_not_configured
  | error_unknown_type (t : String)
deriving DecidableEq, Repr

/-- Events the voice agent sends upstream to the model as a result of one
inbound client message. -/
inductive UpEvent
  | session_update
  | input_audio_buffer_append
  | input_audio_buffer_commit
  | conversation_item_create
  | response_create
  | response_cancel
deriving DecidableEq, Repr

/-- The per-connection state of the message loop. -/
structure WsState where
  user_id : Option String
  session_id : Option String
  ws_limiter : List (String × List Int)
deriving DecidableEq, Repr

/-- The connection state right after `websocket.accept()`. -/
def initialState : WsState :=
  { user_id := none, session_id := none, ws_limiter := [] }

/-- The message dispatch after the rate-limit guard: one case per
`message_type` branch of `realtime_websocket`.  `cancel` calls
`RealtimeVoiceAgent.cancel_response`, which unconditionally sends one
`response.cancel` event upstream; `configure` connects the session (which
sends `session.update`) and replies `configured`; `text_input` and
`function_result` create a conversation item and trigger a response. -/
def dispatch (st : WsState) (msg : ClientMessage) (now : Int) :
    List OutFrame × List UpEvent × WsState :=
  match msg with
  | .configure uid_opt =>
      let uid := uid_opt.getD "anonymous"
      let sid := uid ++ "_" ++ toString now
      ([.configured sid], [.session_update],
        { st with user_id := some uid, session_id := some sid })
  | .audio_input audio =>
      if pyTruthyStr st.session_id = false then
        ([.error_not_configured], [], st)
      else if pyTruthyStr audio then ([], [.input_audio_buffer_append], st)
      else ([], [], st)
  | .audio_commit =>
      if pyTruthyStr st.session_id = false then
        ([.error_not_configured], [], st)
      else ([], [.input_audio_buffer_commit], st)
  | .text_input text =>
      if pyTruthyStr st.session_id = false then
        ([.error_not_configured], [], st)
      else if pyTruthyStr text then
        ([], [.conversation_item_create, .response_create], st)
      else ([], [], st)
  | .cancel =>
      if pyTruthyStr st.session_id then ([], [.response_cancel], st)
      else ([], [], st)
  | .function_result call_id output =>
      if pyTruthyStr st.session_id = false then
        ([.error_not_configured], [], st)
      else if pyTruthyStr call_id ∧ pyTruthyStr output then
        ([], [.conversation_item_create, .response_create], st)
      else ([], [], st)
  | .ping => ([.pong], [], st)
  | .unknown t => ([.error_unknown_type t], [], st)

/-- One iteration of the message loop: the rate-limit guard
(`if message_type not in ["ping", "audio_input"] and user_id:`) followed by
the dispatch.  A denied check sends the rate-limit error frame and
`continue`s. -/
def process_message (st : WsState) (msg : ClientMessage) (now : Int) :
    List OutFrame × List UpEvent × WsState :=
  let exempt : Bool := match msg with
    | .ping => true
    | .audio_input _ => true
    | _ => false
  if exempt = false ∧ pyTruthyStr st.user_id = true then
    let r := ws_check_limit st.ws_limiter 120 (st.user_id.getD "") now
    let st' := { st with ws_limiter := r.2 }
    if r.1.1 = false then
      ([.error_rate_limit r.1.2], [], st')
    else
      dispatch st' msg now
  else
    dispatch st msg now

end WsRoutes

namespace WsRoutes

/-- Claim C10: in the unconfigured state (`user_id` still `None`), the guard
`if message_type not in ["ping", "audio_input"] and user_id:` is falsy for
every message, so each inbound message of every type is dispatched with no
rate-limit check: no rate-limit error frame can be emitted and the limiter
state is untouched. -/
theorem unconfigured_no_rate_limit (st : WsState) (msg : ClientMessage)
    (now : Int) (huser : st.user_id = none) :
    (∀ w, OutFrame.error_rate_limit w ∉ (process_message st msg now).1) ∧
    (process_message st msg now).2.2.ws_limiter = st.ws_limiter ∧
    process_message st msg now = dispatch st msg now := by
  have hguard : pyTruthyStr st.user_id = false := by
    simp [huser, pyTruthyStr]
  have hpm : process_message st msg now = dispatch st msg now := by
    simp [process_message, hguard]
  refine ⟨?_, ?_, hpm⟩
  · rw [hpm]
    cases msg <;> simp [dispatch] <;> split_ifs <;> simp
  · rw [hpm]
    cases msg <;> simp [dispatch] <;> split_ifs <;> simp

/-- Witness for C10: an `audio_commit` arriving right after accept is
dispatched (to the not-configured error) without any rate-limit check. -/
theorem c10_witness :
    (∀ w, OutFrame.error_rate_limit w ∉
      (process_message initialState .audio_commit 0).1) ∧
    (process_message initialState .audio_commit 0).2.2.ws_limiter = [] ∧
    process_message initialState .audio_commit 0 =
      dispatch initialState .audio_commit 0 := by
  have h := unconfigured_no_rate_limit initialState .audio_commit 0 rfl
  exact ⟨h.1, h.2.1, h.2.2⟩

/-- Claim C8, counterexample: starting from a freshly configured session, two
consecutive client `cancel` messages each make `cancel_response` send a
`response.cancel` upstream — two events in total, not at most one. -/
theorem c8_counterexample :
    (let st1 := (process_message initialState (.configure (some "u")) 0).2.2
     let r1 := process_message st1 .cancel 1
     let r2 := process_message r1.2.2 .cancel 2
     r1.2.1.count UpEvent.response_cancel +
       r2.2.1.count UpEvent.response_cancel = 2) := by
  decide

/-- Claim C8 (amended): `cancel_response` keeps no in-flight-response state
and sends unconditionally, so every client `cancel` processed while a
session is configured sends exactly one `response.cancel` upstream — unless
the per-user rate limit denies the message, in which case only the
rate-limit error frame is emitted.  Consecutive cancels are therefore *not*
deduplicated: n admitted cancels produce n upstream `response.cancel`
events. -/
theorem cancel_sends_every_time (st : WsState) (now : Int)
    (hsess : pyTruthyStr st.session_id = true) :
    (pyTruthyStr st.user_id = false →
      (process_message st .cancel now).2.1 = [UpEvent.response_cancel] ∧
      (process_message st .cancel now).2.2.session_id = st.session_id) ∧
    (pyTruthyStr st.user_id = true →
      ((ws_check_limit st.ws_limiter 120 (st.user_id.getD "") now).1.1 = true →
        (process_message st .cancel now).2.1 = [UpEvent.response_cancel] ∧
        (process_message st .cancel now).2.2.session_id = st.session_id) ∧
      ((ws_check_limit st.ws_limiter 120 (st.user_id.getD "") now).1.1 = false →
        (process_message st .cancel now).2.1 = [] ∧
        (process_message st .cancel now).1 =
          [.error_rate_limit
            (ws_check_limit st.ws_limiter 120 (st.user_id.getD "") now).1.2] ∧
        (process_message st .cancel now).2.2.session_id = st.session_id)) := by
  refine ⟨?_, ?_⟩
  · intro hu
    simp [process_message, hu, dispatch, hsess]
  · intro hu
    refine ⟨?_, ?_⟩
    · intro hallow
      simp [process_message, hu, dispatch, hsess, hallow]
    · intro hdeny
      simp [process_message, hu, dispatch, hsess, hdeny]

/-- Witness for C8: in a configured session with an empty limiter window, a
cancel at time 1 sends exactly one upstream `response.cancel`. -/
theorem c8_witness :
    (process_message ⟨some "u", some "u_0", []⟩ .cancel 1).2.1 =
      [UpEvent.response_cancel] := by
  have h := (cancel_sends_every_time ⟨some "u", some "u_0", []⟩ 1
    (by decide)).2 (by decide)
  exact (h.1 (by decide)).1

end WsRoutes

namespace Exec

open WsRoutes (pyTruthyStr)

/-- One Home-Assistant action of a plan.  `domain` and `service` are read with
`action.get(...)`, so they can be absent; the payload fields are passed to
the adapter untouched and do not influence control flow. -/
structure Action where
  domain : Option String
  service : Option String
  service_data : List (String × String)
  target : List (String × String)
deriving DecidableEq, Repr

/-- An action plan as the executor reads it (each field via `plan.get` with
the default shown in the source: `intent` defaults to "unknown",
`needs_confirmation` to false, `actions` to `[]`, `rule_text` to `""`,
`rule_type` to "preference"). -/
structure Plan where
  type : Option String
  intent : Option String
  needs_confirmation : Bool
  actions : List Action
  rule_text : String
  rule_type : String
deriving DecidableEq, Repr

/-- The accumulated outcome of the `_execute_ha_actions` loop: the
`ExecutionResult` lists plus the trace of actual adapter invocations. -/
structure ActionsOutcome where
  executed : List Action
  failed : List Action
  errors : List String
  calls : List Action
deriving DecidableEq, Repr

/-- The per-action loop of `_execute_ha_actions`.  `ha` is the
home-automation adapter: `Except.error e` models `call_service` raising with
message `e`.  An action with a falsy domain or service fails without an
adapter call; `dry_run` simulates success without a call; otherwise the
adapter is invoked and an exception is collected as a failure. -/
def run_actions (ha : Action → Except String Unit) (dry_run : Bool) :
    List Action → ActionsOutcome
  | [] => ⟨[], [], [], []⟩
  | a :: rest =>
      if pyTruthyStr a.domain = false ∨ pyTruthyStr a.service = false then
        let r := run_actions ha dry_run rest
        ⟨r.executed, a :: r.failed, "Missing domain or service" :: r.errors, r.calls⟩
      else if dry_run then
        let r := run_actions ha dry_run rest
        ⟨a :: r.executed, r.failed, r.errors, r.calls⟩
      else
        match ha a with
        | .ok _ =>
            let r := run_actions ha dry_run rest
            ⟨a :: r.executed, r.failed, r.errors, a :: r.calls⟩
        | .error e =>
            let r := run_actions ha dry_run rest
            ⟨r.executed, a :: r.failed, e :: r.errors, a :: r.calls⟩

/-- The result dictionary of one executor run (the keys the claims need:
`success`, `needs_confirmation` — absent keys read as their defaults — and
`errors`, absent in the set-rule and no-execution branches, which
`_log_action` reads back as an empty join). -/
structure ExecuteResult where
  success : Bool
  needs_confirmation : Bool
  errors : List String
deriving DecidableEq, Repr

/-- Model of `Executor._execute_ha_actions` (also returning the adapter-call trace):
empty action lists return success without touching the adapter; otherwise
run the loop; `success` is true iff no action failed. -/
def execute_ha_actions (ha : Action → Except String Unit) (dry_run : Bool)
    (plan : Plan) : ExecuteResult × List Action :=
  if plan.actions.isEmpty then
    ({ success := true, needs_confirmation := false, errors := [] }, [])
  else
    let o := run_actions ha dry_run plan.actions
    ({ success := o.failed.isEmpty, needs_confirmation := false,
       errors := o.errors }, o.calls)

/-- Model of `Executor._execute_set_rule`.  `mem` is the memory service:
`Except.error` models `add_user_rule` raising.  An empty rule text fails
fast; a raise is caught and returned as failure (its message lands in the
`error` key, not `errors`, so the audit join stays empty, as in the
source). -/
def execute_set_rule (mem : Except String Nat) (plan : Plan) : ExecuteResult :=
  if plan.rule_text = "" then
    { success := false, needs_confirmation := false, errors := [] }
  else
    match mem with
    | .ok _ => { success := true, needs_confirmation := false, errors := [] }
    | .error _ => { success := false, needs_confirmation := false, errors := [] }

/-- One row of the `action_log` audit table. -/
structure ActionLogRecord where
  intent : String
  actions : List Action
  confirmed : Bool
  executed : Bool
  success : Bool
  error : Option String
deriving DecidableEq, Repr

/-- Model of `Executor._log_action`: the appended audit row.  `executed` is the
literal `True` of the source; `error` is the `"; "`-join of the result's
`errors` when that list is non-empty (Python `if result.get("errors")`),
else `NULL`. -/
def log_action (intent : String) (plan : Plan) (result : ExecuteResult)
    (confirmed : Bool) : ActionLogRecord :=
  { intent := intent, actions := plan.actions, confirmed := confirmed,
    executed := true, success := result.success,
    error := if result.errors.isEmpty then none
      else some (String.intercalate "; " result.errors) }

/-- Model of `Executor.execute`: the confirmation gate returns early — before routing
and before `_log_action` — whenever the plan needs confirmation and
`confirmed` is false; otherwise the plan is routed by type and exactly one
audit row is appended.  Returns (result, adapter-call trace, appended audit
rows). -/
def execute (ha : Action → Except String Unit) (mem : Except String Nat)
    (plan : Plan) (confirmed : Bool) (dry_run : Bool) :
    ExecuteResult × List Action × List ActionLogRecord :=
  if plan.needs_confirmation && !confirmed then
    ({ success := false, needs_confirmation := true, errors := [] }, [], [])
  else
    let intent := plan.intent.getD "unknown"
    let pr :=
      if plan.type = some "action_plan" then execute_ha_actions ha dry_run plan
      else if plan.type = some "set_rule" then (execute_set_rule mem plan, [])
      else ({ success := true, needs_confirmation := false, errors := [] }, [])
    (pr.1, pr.2, [log_action intent plan pr.1 confirmed])

end Exec

namespace Exec

/-- Claim C1: when a plan needs confirmation and `confirmed` is false, the
executor returns the non-executed decision (`success=false`,
`needs_confirmation=true`) before any routing: the adapter-call trace is
empty (no home-automation call is performed) and no audit row is appended;
once `confirmed` is true the gate no longer blocks and an action plan is
routed to the Home-Assistant executor. -/
theorem execute_confirmation_gate (ha : Action → Except String Unit)
    (mem : Except String Nat) (plan : Plan) (dry_run : Bool)
    (hconf : plan.needs_confirmation = true) :
    (execute ha mem plan false dry_run).1.success = false ∧
    (execute ha mem plan false dry_run).1.needs_confirmation = true ∧
    (execute ha mem plan false dry_run).2.1 = [] ∧
    (execute ha mem plan false dry_run).2.2 = [] ∧
    (plan.type = some "action_plan" →
      (execute ha mem plan true dry_run).2.1 =
        (execute_ha_actions ha dry_run plan).2) := by
  refine ⟨?_, ?_, ?_, ?_, ?_⟩ <;>
    simp [execute, hconf]
  intro ht
  simp [ht]

/-- The confirmation-gated plan used by the C1 witness and C2
counterexample: one light action, confirmation required. -/
def planW : Plan :=
  { type := some "action_plan", intent := some "ha_control",
    needs_confirmation := true,
    actions := [⟨some "light", some "turn_on", [], [("area_id", "bedroom")]⟩],
    rule_text := "", rule_type := "preference" }

/-- Witness for C1: the unconfirmed call on `planW` blocks with no adapter
call. -/
theorem c1_witness :
    (execute (fun _ => Except.ok ()) (Except.ok 1) planW false false).1.success
      = false ∧
    (execute (fun _ => Except.ok ()) (Except.ok 1) planW false false).1.needs_confirmation
      = true ∧
    (execute (fun _ => Except.ok ()) (Except.ok 1) planW false false).2.1 = [] := by
  have h := execute_confirmation_gate (fun _ => Except.ok ()) (Except.ok 1)
    planW false rfl
  exact ⟨h.1, h.2.1, h.2.2.1⟩

/-- Claim C2, counterexample: the confirmation-required early return happens
*before* `_log_action`, so this call writes no audit record at all, although
the claim requires a record on every call. -/
theorem c2_counterexample :
    planW.needs_confirmation = true ∧
    (execute (fun _ => Except.ok ()) (Except.ok 1) planW false false).2.2
      = [] := by
  refine ⟨rfl, ?_⟩
  simp [execute, planW]

/-- Claim C2 (amended): every call to `execute` that passes the confirmation
gate (i.e. except when confirmation is required and not yet given, where the
early return writes nothing) appends exactly one audit record carrying the
`confirmed` flag, the `executed` flag (hardcoded true by `_log_action`), the
result's success flag, and the `"; "`-concatenated per-action error
messages. -/
theorem execute_always_audits (ha : Action → Except String Unit)
    (mem : Except String Nat) (plan : Plan) (confirmed dry_run : Bool)
    (h : (plan.needs_confirmation && !confirmed) = false) :
    (execute ha mem plan confirmed dry_run).2.2 =
      [log_action (plan.intent.getD "unknown") plan
        (execute ha mem plan confirmed dry_run).1 confirmed] ∧
    (∀ rec ∈ (execute ha mem plan confirmed dry_run).2.2,
      rec.confirmed = confirmed ∧ rec.executed = true ∧
      rec.success = (execute ha mem plan confirmed dry_run).1.success ∧
      rec.error = (if (execute ha mem plan confirmed dry_run).1.errors.isEmpty
        then none
        else some (String.intercalate "; "
          (execute ha mem plan confirmed dry_run).1.errors))) := by
  constructor
  · simp [execute, h]
  · intro rec hrec
    simp only [execute, h] at hrec
    simp only [Bool.false_eq_true, if_false, List.mem_singleton] at hrec
    subst hrec
    simp [execute, h, log_action]

/-- An unconfirmed plan without a confirmation requirement, executed against
a failing adapter, for the C2 witness. -/
def planX : Plan :=
  { type := some "action_plan", intent := some "ha_control",
    needs_confirmation := false,
    actions := [⟨some "light", some "turn_on", [], [("area_id", "bedroom")]⟩],
    rule_text := "", rule_type := "preference" }

/-- Witness for C2: the failing run on `planX` appends exactly the audit row
built by `_log_action`. -/
theorem c2_witness :
    (execute (fun _ => Except.error "boom") (Except.ok 1) planX false false).2.2 =
      [log_action "ha_control" planX
        (execute (fun _ => Except.error "boom") (Except.ok 1) planX false false).1
        false] := by
  exact (execute_always_audits (fun _ => Except.error "boom") (Except.ok 1)
    planX false false rfl).1

end Exec
